import Mathlib

/-
Verification development for the distube-invidious plugin.
The definitions below are executable shallow embeddings of the functions in
src/src/cipherDecoder.ts and src/src/index.ts; JavaScript in-place array
mutation is modeled by returning the new array, JS truthiness on strings by
emptiness tests, and optional record fields by Option.
-/

namespace DistubeInvidious

/-- Occurrence test: does `pat` occur as a contiguous run inside `l`?
Executable model of JavaScript String.prototype.includes, used throughout
cipherDecoder.ts for classifying helper bodies and index.ts for mime checks. -/
def strHas (pat : List Char) : List Char → Bool
  | [] => pat.isEmpty
  | c :: rest => pat.isPrefixOf (c :: rest) || strHas pat rest

/-- Model of the JavaScript expression s.includes(pat). -/
def jsIncludes (s pat : String) : Bool := strHas pat.toList s.toList

/-- Fuel-driven splitter on a non-empty separator; the fuel starts at the
length of the input so it can never run out, keeping the recursion structural
so all proofs below can evaluate by kernel reduction. -/
def splitGo (sep : List Char) : Nat → List Char → List Char → List (List Char)
  | 0, acc, l => [acc.reverse ++ l]
  | _ + 1, acc, [] => [acc.reverse]
  | fuel + 1, acc, c :: rest =>
    if sep.isPrefixOf (c :: rest) then
      acc.reverse :: splitGo sep fuel [] (List.drop sep.length (c :: rest))
    else
      splitGo sep fuel (c :: acc) rest

/-- Model of JavaScript s.split(sep) for the non-empty separators used by
buildOperations in src/src/cipherDecoder.ts (the separators there are
never empty, so the empty-separator behavior of JS is out of scope). -/
def jsSplitOn (s sep : String) : List String :=
  if sep.toList.isEmpty then [s]
  else (splitGo sep.toList s.toList.length [] s.toList).map List.asString

/-- Model of JavaScript s.trim() (whitespace on both ends removed). -/
def jsTrim (s : String) : String :=
  (((s.toList.dropWhile Char.isWhitespace).reverse.dropWhile
      Char.isWhitespace).reverse).asString

/-- Model of JavaScript s.toLowerCase() for the ASCII strings in play. -/
def jsLower (s : String) : String := (s.toList.map Char.toLower).asString

/-- Model of JavaScript s.startsWith(pat). -/
def strStarts (s pat : String) : Bool := pat.toList.isPrefixOf s.toList

/-- Model of JavaScript s.endsWith(pat). -/
def strEnds (s pat : String) : Bool := pat.toList.reverse.isPrefixOf s.toList.reverse

/-- Type of one entry of the operations table built by buildOperations
(src/src/cipherDecoder.ts line 265): the JS signature is
(a: string[], b: number) => void; the in-place mutation of the character
array a is modeled by returning the new array, which is the only thing
these functions may change. -/
def Operation : Type := List Char → Nat → List Char

/-- Embedding of the reverse primitive: (a) => a.reverse()
(cipherDecoder.ts line 277). -/
def reverseOp : Operation := fun a _ => a.reverse

/-- Embedding of the drop-prefix primitive: (a, b) => a.splice(0, b)
(cipherDecoder.ts line 279); splice(0, b) removes the first b elements. -/
def spliceOp : Operation := fun a b => a.drop b

/-- Embedding of the swap-at-offset primitive (cipherDecoder.ts lines 283-288):
idx = b mod a.length, then exchange a[0] and a[idx].  On the empty array the
JS code reads and writes undefined slots whose join is the empty string, so
the character-list model returns the array unchanged there. -/
def swapOp : Operation := fun a b =>
  if a.isEmpty then a
  else
    let idx := b % a.length
    let c := a.getD 0 ' '
    (a.set 0 (a.getD idx ' ')).set idx c

/-- One rotate-left pass: a.push(a.splice(0, 1)[0]) moves the head to the
end; the loop while (b-- > 0) repeats it b times (cipherDecoder.ts
lines 290-294). -/
def rotGo : Nat → List Char → List Char
  | 0, a => a
  | k + 1, a => rotGo k (a.drop 1 ++ a.take 1)

/-- Embedding of the rotate-left primitive built at cipherDecoder.ts
lines 289-295. -/
def rotOp : Operation := fun a b => rotGo b a

/-- Classification of one helper-entry body by characteristic substrings, in
the exact source order of the if/else chain at cipherDecoder.ts lines
276-295: reverse, then splice, then the swap fragment, then the rotate
fragment. -/
def classifyOp (body : String) : Option Operation :=
  if jsIncludes body "reverse" then some reverseOp
  else if jsIncludes body "splice" then some spliceOp
  else if jsIncludes body "var c=a[0];a[0]=a[b%a.length];a[b]=c" then some swapOp
  else if jsIncludes body "a.push(a.splice(0,b)[0])" then some rotOp
  else none

/-- Embedding of buildOperations (cipherDecoder.ts lines 265-300): split the
helper body on "\x7d,", split each entry on ":function", skip entries with a
missing or empty name or body, classify the rest.  The JS object assignment
operations[name] = ... lets a later entry shadow an earlier one with the same
name; consing new entries to the front with first-match lookup reproduces
that. -/
def buildOperations (helperBody : String) : List (String × Operation) :=
  (jsSplitOn helperBody "\x7d,").foldl
    (fun ops entry =>
      match jsSplitOn entry ":function" with
      | rawName :: rawBody :: _ =>
        if rawName = "" || rawBody = "" then ops
        else
          match classifyOp rawBody with
          | some op => (jsTrim rawName, op) :: ops
          | none => ops
      | _ => ops)
    []

/-- Lookup of a mnemonic in the operations table: operations[step.method]
in the closure returned by buildTransform (cipherDecoder.ts line 325). -/
def tableGet (operations : List (String × Operation)) (m : String) : Option Operation :=
  (operations.find? (fun p => p.1 == m)).map (fun p => p.2)

/-- The instruction loop of the closure returned by buildTransform
(cipherDecoder.ts lines 324-329): apply each (method, arg) step in order,
skipping steps whose method is absent from the table. -/
def runSteps (operations : List (String × Operation)) (steps : List (String × Nat))
    (arr : List Char) : List Char :=
  steps.foldl
    (fun arr step =>
      match tableGet operations step.1 with
      | some op => op arr step.2
      | none => arr)
    arr

/-- Embedding of the closure returned by buildTransform (cipherDecoder.ts
lines 322-331): split the input into characters, run the instruction list,
join back to a string. -/
def applySteps (operations : List (String × Operation)) (steps : List (String × Nat))
    (n : String) : String :=
  (runSteps operations steps n.toList).asString

/-- Helper-object body whose three entries carry the reverse, drop-prefix and
swap-at-offset implementation fragments, shaped like the player-script
helper objects buildOperations is fed. -/
def goodHelper : String :=
  "rv:function(a)\x7ba.reverse()\x7d,dp:function(a,b)\x7ba.splice(0,b)\x7d,sw:function(a,b)\x7bvar c=a[0];a[0]=a[b%a.length];a[b]=c\x7d"

/-- Helper-object body whose single entry carries the rotate-left
implementation fragment a.push(a.splice(0,b)[0]) that the fourth branch of
buildOperations looks for. -/
def rotFragmentHelper : String :=
  "rt:function(a,b)\x7ba.push(a.splice(0,b)[0])\x7d"

/-- C1: the operation built by buildOperations for each recognizable
implementation fragment, evaluated on the spec's literal vectors.  The
reverse, drop-prefix(2) and swap-at-offset(3) vectors hold, but a helper
body carrying the rotate-left fragment a.push(a.splice(0,b)[0]) is captured
by the earlier includes("splice") branch, so the operation actually built
for it is drop-prefix: rotate-left(2) on "abcdef" yields "cdef" instead of
the documented "cdefab".  The fourth (rotate) branch of buildOperations is
unreachable, since its fragment always contains "splice". -/
theorem c1_operation_table_vectors :
    applySteps (buildOperations goodHelper) [("rv", 0)] "abcdef" = "fedcba"
      ∧ applySteps (buildOperations goodHelper) [("dp", 2)] "abcdef" = "cdef"
      ∧ applySteps (buildOperations goodHelper) [("sw", 3)] "abcdef" = "dbcaef"
      ∧ applySteps (buildOperations rotFragmentHelper) [("rt", 2)] "abcdef" = "cdef"
      ∧ applySteps (buildOperations rotFragmentHelper) [("rt", 2)] "abcdef" ≠ "cdefab" := by
  decide

/-- C4 counterexample: the claim states that applying
[reverse, drop-prefix(1)] to "abcd" also yields "dcb"; the compiled
transform actually yields "cba" (reverse gives "dcba", dropping one then
gives "cba"). -/
theorem c4_order_cx :
    applySteps (buildOperations goodHelper) [("rv", 0), ("dp", 1)] "abcd" = "cba"
      ∧ applySteps (buildOperations goodHelper) [("rv", 0), ("dp", 1)] "abcd" ≠ "dcb" := by
  decide

/-- C4 amended: transform composition is order-sensitive.
[drop-prefix(1), reverse] on "abcd" yields "dcb" while [reverse,
drop-prefix(1)] yields "cba" (already a differing pair), and
[swap-at-offset(2), drop-prefix(1)] versus [drop-prefix(1),
swap-at-offset(2)] on "abcd" produce the two different outputs "bad" and
"dcb". -/
theorem c4_order_sensitivity_amended :
    applySteps (buildOperations goodHelper) [("dp", 1), ("rv", 0)] "abcd" = "dcb"
      ∧ applySteps (buildOperations goodHelper) [("rv", 0), ("dp", 1)] "abcd" = "cba"
      ∧ applySteps (buildOperations goodHelper) [("sw", 2), ("dp", 1)] "abcd" = "bad"
      ∧ applySteps (buildOperations goodHelper) [("dp", 1), ("sw", 2)] "abcd" = "dcb"
      ∧ applySteps (buildOperations goodHelper) [("sw", 2), ("dp", 1)] "abcd"
          ≠ applySteps (buildOperations goodHelper) [("dp", 1), ("sw", 2)] "abcd" := by
  decide

/-- C5: an instruction whose mnemonic is absent from the operation table is
skipped without failing; the transform applied to the instruction list with
the unknown instruction equals the transform applied to the list with that
instruction removed (the closure at cipherDecoder.ts lines 324-329 does
if (op) op(arr, step.arg), so a failed lookup leaves the array untouched). -/
theorem c5_unknown_mnemonic_skipped (operations : List (String × Operation))
    (s1 s2 : List (String × Nat)) (m : String) (k : Nat) (n : String)
    (h : tableGet operations m = none) :
    applySteps operations (s1 ++ (m, k) :: s2) n = applySteps operations (s1 ++ s2) n := by
  simp [applySteps, runSteps, List.foldl_append, h]

/-- C5 witness: a concrete table missing the mnemonic "zz" applied to an
instruction list containing ("zz", 1) gives the same result as the list with
that instruction removed. -/
theorem c5_skip_witness :
    tableGet (buildOperations goodHelper) "zz" = none
      ∧ applySteps (buildOperations goodHelper) ([("rv", 0)] ++ ("zz", 1) :: [("dp", 1)]) "abcd"
          = applySteps (buildOperations goodHelper) ([("rv", 0)] ++ [("dp", 1)]) "abcd" :=
  ⟨rfl, c5_unknown_mnemonic_skipped (buildOperations goodHelper) [("rv", 0)] [("dp", 1)]
    "zz" 1 "abcd" rfl⟩

/-- Data closed over by the compiled Transform closure
(cipherDecoder.ts lines 322-331): the precomputed instruction list and the
operations table. -/
structure TransformClosure where
  steps : List (String × Nat)
  operations : List (String × Operation)

/-- Per-call execution state of the Transform closure: the mutable per-call
character array created by n.split("") together with the closed-over data,
so that a proof can observe that running the instruction list never writes
to the closed-over part. -/
structure CallState where
  arr : List Char
  clos : TransformClosure

/-- One instruction applied to the call state: the operation signature
(a: string[], b: number) => void only lets it replace the array. -/
def stepExec (st : CallState) (step : String × Nat) : CallState :=
  match tableGet st.clos.operations step.1 with
  | some op => { st with arr := op st.arr step.2 }
  | none => st

/-- One invocation of the compiled Transform: build a fresh array from the
input (const arr = n.split("")), run every instruction, join, and hand back
the closed-over data as it stands after the call. -/
def callTransform (t : TransformClosure) (n : String) : String × TransformClosure :=
  let final := t.steps.foldl stepExec { arr := n.toList, clos := t }
  (final.arr.asString, final.clos)

/-- A sequence of invocations of the same Transform, threading the
closed-over data from call to call. -/
def runCalls (t : TransformClosure) : List String → List String × TransformClosure
  | [] => ([], t)
  | n :: rest =>
    let r := callTransform t n
    let rs := runCalls r.2 rest
    (r.1 :: rs.1, rs.2)

/-- Running the instruction loop only rewrites the per-call array; the
closed-over instruction list and table survive untouched. -/
theorem foldl_stepExec (steps : List (String × Nat)) :
    ∀ st : CallState,
      steps.foldl stepExec st
        = { arr := runSteps st.clos.operations steps st.arr, clos := st.clos } := by
  induction steps with
  | nil => intro st; simp [runSteps]
  | cons s rest ih =>
    intro st
    rw [List.foldl_cons, ih]
    unfold stepExec
    cases h : tableGet st.clos.operations s.1 <;> simp [h, runSteps]

/-- C8: the compiled Transform is deterministic and reentrant.  Any sequence
of invocations of the same Transform leaves the closed-over instruction list
and operation table exactly as they were, and each output is the pure
function applySteps of the original closed-over data at that input alone —
independent of call history, because every call works on its own freshly
split character array.  In particular two applications to the same input
(inputs = [n, n]) return the same output. -/
theorem c8_transform_reentrant (t : TransformClosure) (inputs : List String) :
    runCalls t inputs = (inputs.map (fun n => applySteps t.operations t.steps n), t) := by
  induction inputs with
  | nil => rfl
  | cons n rest ih =>
    simp [runCalls, callTransform, foldl_stepExec, applySteps, ih]

/-- A concrete transform closure over the three-operation table. -/
def tc0 : TransformClosure :=
  { steps := [("rv", 0), ("dp", 1)], operations := buildOperations goodHelper }

/-- C8 witness: two back-to-back invocations of the same concrete Transform
on "abcd" both return "cba" and hand the closure back unchanged. -/
theorem c8_reentrant_witness :
    runCalls tc0 ["abcd", "abcd"] = (["cba", "cba"], tc0) :=
  c8_transform_reentrant tc0 ["abcd", "abcd"]

/-- The data from which buildTransform makes the cached transform closure:
the instruction list parsed from the function body and the operations table
built from the helper body (cipherDecoder.ts lines 346-347). -/
structure TransformData where
  steps : List (String × Nat)
  table : List (String × Operation)

/-- The module-level mutable cache of cipherDecoder.ts (second variant,
lines 134-136): cachedPlayerUrl, cachedPlayerCode and cachedTransform, all
initially null. -/
structure SessionState where
  cachedPlayerUrl : Option String
  cachedPlayerCode : Option String
  cachedTransform : Option TransformData

/-- Result of one network fetch: res.ok and the response text. -/
structure FetchResp where
  ok : Bool
  text : String

/-- Parameters standing for the regex-based helpers of cipherDecoder.ts:
matchJsUrl for the pattern cascade of getPlayerUrl (lines 151-167),
extractName for extractNFunctionName (191-207), extractBody for
extractFunctionBody (212-229), extractHelperName (234-242),
extractHelperObject (247-260), and parseCalls for the call-scanning loop of
buildTransform (307-320).  The claims settled with this model concern only
the caching and sequencing control flow around these helpers, so their
regex internals are abstracted as functions of the same shapes. -/
structure CipherEnv where
  matchJsUrl : String → Option String
  extractName : String → Except String String
  extractBody : String → String → Except String String
  extractHelperName : String → Except String String
  extractHelperObject : String → String → Except String String
  parseCalls : String → List (String × Nat)

/-- The watch-page URL fetched by getPlayerUrl. -/
def watchUrl : String := "https://www.youtube.com/watch?v=dQw4w9WgXcQ"

/-- The synchronous tail of getTransform (cipherDecoder.ts lines 342-350):
extract the function name, its body, the helper name and the helper body
from the player code, build the operation table and instruction list, and
cache the result only when every stage succeeded.  An error at any stage
leaves the state exactly as it was handed in. -/
def runPipeline (env : CipherEnv) (code : String) (s : SessionState) :
    SessionState × Except String TransformData :=
  match env.extractName code with
  | .error e => (s, .error e)
  | .ok fnName =>
    match env.extractBody code fnName with
    | .error e => (s, .error e)
    | .ok fnBody =>
      match env.extractHelperName fnBody with
      | .error e => (s, .error e)
      | .ok helperName =>
        match env.extractHelperObject code helperName with
        | .error e => (s, .error e)
        | .ok helperBody =>
          let td : TransformData :=
            { steps := env.parseCalls fnBody, table := buildOperations helperBody }
          ({ s with cachedTransform := some td }, .ok td)

/-- The tail of getPlayerCode (cipherDecoder.ts lines 178-185) followed by
the extraction pipeline: fetch the player JS, fail on a non-ok response,
otherwise cache the code and run the synchronous pipeline. -/
def fetchJsAndFinish (env : CipherEnv) (oracle : String → FetchResp)
    (s : SessionState) (jsUrl : String) : SessionState × Except String TransformData :=
  let resp := oracle jsUrl
  if resp.ok then
    runPipeline env resp.text { s with cachedPlayerCode := some resp.text }
  else (s, .error "Failed to fetch player JS")

/-- The build path of getTransform (cipherDecoder.ts lines 340-350) with the
cachedTransform fast path removed: consult the player-code cache, else the
player-url cache, else fetch the watch page (getPlayerUrl lines 142-169),
then fetch the player JS and run the pipeline. -/
def runOneBuild (env : CipherEnv) (oracle : String → FetchResp)
    (s : SessionState) : SessionState × Except String TransformData :=
  match s.cachedPlayerCode with
  | some code => runPipeline env code s
  | none =>
    match s.cachedPlayerUrl with
    | some u => fetchJsAndFinish env oracle s u
    | none =>
      let resp := oracle watchUrl
      if resp.ok then
        match env.matchJsUrl resp.text with
        | some m =>
          let url := if strStarts m "http" then m else "https://www.youtube.com" ++ m
          fetchJsAndFinish env oracle { s with cachedPlayerUrl := some url } url
        | none => (s, .error "Could not find player JS URL in watch page")
      else (s, .error "Failed to fetch watch page")

/-- One complete call of getTransform (cipherDecoder.ts lines 337-351) run
to completion, returning the final cache state together with the result:
the cached transform when Ready, otherwise the outcome of the build path. -/
def runOne (env : CipherEnv) (oracle : String → FetchResp)
    (s : SessionState) : SessionState × Except String TransformData :=
  match s.cachedTransform with
  | some td => (s, .ok td)
  | none => runOneBuild env oracle s

/-- An error result from the pipeline leaves the session state untouched;
only full success writes the transform cache. -/
theorem runPipeline_state (env : CipherEnv) (code : String) (s : SessionState) :
    (runPipeline env code s).1 = s ∨ ∃ td, (runPipeline env code s).2 = Except.ok td := by
  unfold runPipeline
  rcases h1 : env.extractName code with e | fnName <;> simp only [h1]
  · simp
  rcases h2 : env.extractBody code fnName with e | fnBody <;> simp only [h2]
  · simp
  rcases h3 : env.extractHelperName fnBody with e | helperName <;> simp only [h3]
  · simp
  rcases h4 : env.extractHelperObject code helperName with e | helperBody <;> simp only [h4]
  · simp
  · simp

/-- The build path either preserves the cachedTransform slot or succeeds:
the watch-page fetch, the player-JS fetch and the extraction stages may
write the player-url and player-code caches, but never a transform. -/
theorem runOneBuild_keeps (env : CipherEnv) (oracle : String → FetchResp)
    (s : SessionState) :
    (runOneBuild env oracle s).1.cachedTransform = s.cachedTransform
      ∨ ∃ td, (runOneBuild env oracle s).2 = Except.ok td := by
  have hfj : ∀ (s2 : SessionState) (u : String),
      (fetchJsAndFinish env oracle s2 u).1.cachedTransform = s2.cachedTransform
        ∨ ∃ td, (fetchJsAndFinish env oracle s2 u).2 = Except.ok td := by
    intro s2 u
    unfold fetchJsAndFinish
    by_cases hok : (oracle u).ok
    · simp only [hok, if_true]
      rcases runPipeline_state env (oracle u).text
          { s2 with cachedPlayerCode := some (oracle u).text } with h | h
      · exact Or.inl (by rw [h])
      · exact Or.inr h
    · simp [hok]
  unfold runOneBuild
  cases s.cachedPlayerCode with
  | some code =>
    rcases runPipeline_state env code s with h | h
    · exact Or.inl (by rw [h])
    · exact Or.inr h
  | none =>
    cases s.cachedPlayerUrl with
    | some u => exact hfj s u
    | none =>
      by_cases hok : (oracle watchUrl).ok
      · simp only [hok, if_true]
        cases env.matchJsUrl (oracle watchUrl).text with
        | some m => exact hfj _ _
        | none => simp
      · simp [hok]

/-- C6: a failure in any stage of the build pipeline caches no
partially-built Transform — after a failed getTransform call the
cachedTransform slot is still empty, and a subsequent call therefore takes
the build path again (runOneBuild) instead of returning a cached value. -/
theorem c6_failed_build_uncached (env : CipherEnv) (oracle : String → FetchResp)
    (s : SessionState) (hs : s.cachedTransform = none) (e : String)
    (he : (runOne env oracle s).2 = Except.error e) :
    (runOne env oracle s).1.cachedTransform = none
      ∧ ∀ (env2 : CipherEnv) (oracle2 : String → FetchResp),
          runOne env2 oracle2 (runOne env oracle s).1
            = runOneBuild env2 oracle2 (runOne env oracle s).1 := by
  have hro : runOne env oracle s = runOneBuild env oracle s := by
    unfold runOne; rw [hs]
  rw [hro] at he ⊢
  rcases runOneBuild_keeps env oracle s with h | ⟨td, h⟩
  · rw [hs] at h
    refine ⟨h, fun env2 oracle2 => ?_⟩
    unfold runOne
    rw [h]
  · rw [he] at h
    cases h

/-- The session with every cache slot null, as at process start. -/
def s0 : SessionState :=
  { cachedPlayerUrl := none, cachedPlayerCode := none, cachedTransform := none }

/-- A concrete extraction environment in which every stage succeeds. -/
def envOK : CipherEnv :=
  { matchJsUrl := fun _ => some "/base.js"
  , extractName := fun _ => .ok "nf"
  , extractBody := fun _ _ => .ok "FNBODY"
  , extractHelperName := fun _ => .ok "hh"
  , extractHelperObject := fun _ _ => .ok goodHelper
  , parseCalls := fun _ => [("rv", 0)] }

/-- The player-JS URL produced from envOK's "/base.js" capture after the
https prefixing in getPlayerUrl. -/
def jsU : String := "https://www.youtube.com/base.js"

/-- A fetch oracle on which every request succeeds. -/
def oracleOK : String → FetchResp := fun u =>
  if u == watchUrl then { ok := true, text := "HTML" } else { ok := true, text := "JSCODE" }

/-- A fetch oracle on which every request fails at the transport level. -/
def oracleFail : String → FetchResp := fun _ => { ok := false, text := "" }

/-- C6 witness: with the watch-page fetch failing, the first getTransform
call errors, the transform slot is still empty afterwards, and the next call
takes the build path. -/
theorem c6_uncached_witness :
    (runOne envOK oracleFail s0).2 = Except.error "Failed to fetch watch page"
      ∧ ((runOne envOK oracleFail s0).1.cachedTransform = none
          ∧ ∀ (env2 : CipherEnv) (oracle2 : String → FetchResp),
              runOne env2 oracle2 (runOne envOK oracleFail s0).1
                = runOneBuild env2 oracle2 (runOne envOK oracleFail s0).1) :=
  ⟨rfl, c6_failed_build_uncached envOK oracleFail s0 rfl "Failed to fetch watch page" rfl⟩

/-- The suspension points of one getTransform caller: a caller is either
about to run its first synchronous section, suspended awaiting the
watch-page fetch, suspended awaiting the player-JS fetch at the given URL,
or finished with its result.  JavaScript interleaves concurrent async calls
only at such await points; everything between two awaits runs atomically. -/
inductive CallPhase where
  | start
  | awaitWatch
  | awaitJs (jsUrl : String)
  | finished (r : Except String TransformData)

/-- Output of advancing one caller by one atomic section: the shared state
afterwards, the caller's next phase, and the URL of the fetch the section
started, if any. -/
structure StepOut where
  state : SessionState
  phase : CallPhase
  fetched : Option String

/-- Advance one getTransform caller through its next atomic section of
cipherDecoder.ts: from start, check the transform / player-code /
player-url caches and start the needed fetch; on resuming from the
watch-page fetch, run the pattern cascade, cache the player URL and start
the player-JS fetch; on resuming from the player-JS fetch, cache the code
and run the whole synchronous extraction pipeline. -/
def callStep (env : CipherEnv) (oracle : String → FetchResp)
    (s : SessionState) : CallPhase → StepOut
  | .start =>
    match s.cachedTransform with
    | some td => { state := s, phase := .finished (.ok td), fetched := none }
    | none =>
      match s.cachedPlayerCode with
      | some code =>
        let r := runPipeline env code s
        { state := r.1, phase := .finished r.2, fetched := none }
      | none =>
        match s.cachedPlayerUrl with
        | some u => { state := s, phase := .awaitJs u, fetched := some u }
        | none => { state := s, phase := .awaitWatch, fetched := some watchUrl }
  | .awaitWatch =>
    let resp := oracle watchUrl
    if resp.ok then
      match env.matchJsUrl resp.text with
      | some m =>
        let url := if strStarts m "http" then m else "https://www.youtube.com" ++ m
        { state := { s with cachedPlayerUrl := some url }
        , phase := .awaitJs url, fetched := some url }
      | none =>
        { state := s
        , phase := .finished (.error "Could not find player JS URL in watch page")
        , fetched := none }
    else
      { state := s, phase := .finished (.error "Failed to fetch watch page")
      , fetched := none }
  | .awaitJs jsUrl =>
    let resp := oracle jsUrl
    if resp.ok then
      let r := runPipeline env resp.text { s with cachedPlayerCode := some resp.text }
      { state := r.1, phase := .finished r.2, fetched := none }
    else
      { state := s, phase := .finished (.error "Failed to fetch player JS")
      , fetched := none }
  | .finished r => { state := s, phase := .finished r, fetched := none }

/-- Shared state of two concurrent getTransform callers plus the log of
fetches started so far, in order. -/
structure SchedState where
  shared : SessionState
  pa : CallPhase
  pb : CallPhase
  log : List String

/-- The fetch log contribution of one step. -/
def fetchLog : Option String → List String
  | some u => [u]
  | none => []

/-- Advance caller A by one atomic section (no-op once finished). -/
def stepCallerA (env : CipherEnv) (oracle : String → FetchResp)
    (st : SchedState) : SchedState :=
  match st.pa with
  | .finished r => { st with pa := .finished r }
  | p =>
    let o := callStep env oracle st.shared p
    { st with shared := o.state, pa := o.phase, log := st.log ++ fetchLog o.fetched }

/-- Advance caller B by one atomic section (no-op once finished). -/
def stepCallerB (env : CipherEnv) (oracle : String → FetchResp)
    (st : SchedState) : SchedState :=
  match st.pb with
  | .finished r => { st with pb := .finished r }
  | p =>
    let o := callStep env oracle st.shared p
    { st with shared := o.state, pb := o.phase, log := st.log ++ fetchLog o.fetched }

/-- Run the two callers under an explicit schedule: true steps caller A,
false steps caller B. -/
def runSched (env : CipherEnv) (oracle : String → FetchResp) :
    List Bool → SchedState → SchedState
  | [], st => st
  | b :: rest, st =>
    runSched env oracle rest
      (if b then stepCallerA env oracle st else stepCallerB env oracle st)

/-- Both callers start while the session is Uninitialized. -/
def bothStart : SchedState := { shared := s0, pa := .start, pb := .start, log := [] }

/-- C9 counterexample: when two callers enter the build path concurrently
(round-robin interleaving at the await points) while the session is
Uninitialized, the player script is fetched twice, not once — getTransform
caches only the completed result, never the in-flight attempt, so the
callers do not share a single build.  Both callers also fetch the watch
page, so the whole log has four fetches. -/
theorem c9_single_flight_cx :
    (runSched envOK oracleOK [true, false, true, false, true, false] bothStart).log.count jsU = 2
      ∧ ¬((runSched envOK oracleOK [true, false, true, false, true, false] bothStart).log.count jsU = 1)
      ∧ (runSched envOK oracleOK [true, false, true, false, true, false] bothStart).log
          = [watchUrl, watchUrl, jsU, jsU] := by
  decide

/-- C9 amended: callers are coalesced only through the completed-result
cache.  A second caller that begins after the first call has finished its
build performs no fetch at all, so sequential callers cost exactly one
player-script fetch in total; but callers interleaved while the session is
still Uninitialized each fetch the player script themselves (two concurrent
callers make two player-script fetches). -/
theorem c9_coalescing_amended :
    (runSched envOK oracleOK [true, true, true, false, false, false] bothStart).log.count jsU = 1
      ∧ (runSched envOK oracleOK [true, true, true, false, false, false] bothStart).log
          = [watchUrl, jsU]
      ∧ (runSched envOK oracleOK [true, false, true, false, true, false] bothStart).log.count jsU = 2 := by
  decide

/-- A parsed URL as fixUrl sees it after new URL(url): an opaque base
(scheme, host, path) plus the ordered query-parameter list exposed through
u.searchParams.  The textual parse and reserialization of new URL /
toString are outside the scope of the claims settled here. -/
structure UrlModel where
  base : String
  params : List (String × String)

/-- Drop every pair with the given key. -/
def removeParam (ps : List (String × String)) (k : String) : List (String × String) :=
  ps.filter (fun p => ¬(p.1 == k))

/-- Model of URLSearchParams.set(k, v): replace the value of the first pair
with key k, drop any later pairs with that key, and append the pair when the
key is absent. -/
def setParam : List (String × String) → String → String → List (String × String)
  | [], k, v => [(k, v)]
  | p :: rest, k, v =>
    if p.1 == k then (k, v) :: removeParam rest k
    else p :: setParam rest k v

/-- Model of URLSearchParams.get(k): the value of the first pair with key k,
null when absent. -/
def paramsGet (ps : List (String × String)) (k : String) : Option String :=
  (ps.find? (fun p => p.1 == k)).map (fun p => p.2)

/-- Model of URLSearchParams.has(k). -/
def paramsHas (ps : List (String × String)) (k : String) : Bool :=
  (ps.find? (fun p => p.1 == k)).isSome

/-- Embedding of fixUrl (cipherDecoder.ts second variant, lines 364-382):
read the "n" parameter; when present and non-empty (JS truthiness), try to
decode it, writing the decoded value back on success and swallowing the
failure (it is only logged) on error; finally ensure ratebypass=yes.  The
function is total — a decoding failure cannot escape the try/catch. -/
def fixUrl2 (decode : String → Except String String) (u : UrlModel) : UrlModel :=
  let u1 : UrlModel :=
    match paramsGet u.params "n" with
    | some n =>
      if n == "" then u
      else
        match decode n with
        | .ok d => { u with params := setParam u.params "n" d }
        | .error _ => u
    | none => u
  if ¬ paramsHas u1.params "ratebypass" then
    { u1 with params := setParam u1.params "ratebypass" "yes" }
  else u1

/-- Membership test on a cons cell unfolds to a disjunction. -/
theorem paramsHas_cons (p : String × String) (rest : List (String × String)) (k : String) :
    paramsHas (p :: rest) k = ((p.1 == k) || paramsHas rest k) := by
  cases hpk : (p.1 == k) <;> simp [paramsHas, List.find?, hpk]

/-- Lookup on a cons cell takes the head exactly when its key matches. -/
theorem paramsGet_cons (p : String × String) (rest : List (String × String)) (k : String) :
    paramsGet (p :: rest) k = if (p.1 == k) then some p.2 else paramsGet rest k := by
  cases hpk : (p.1 == k) <;> simp [paramsGet, List.find?, hpk]

/-- Setting an absent key appends the pair at the end. -/
theorem setParam_absent (k v : String) :
    ∀ ps : List (String × String), paramsHas ps k = false → setParam ps k v = ps ++ [(k, v)] := by
  intro ps
  induction ps with
  | nil => intro _; rfl
  | cons p rest ih =>
    intro h
    rw [paramsHas_cons] at h
    rcases Bool.or_eq_false_iff.mp h with ⟨h1, h2⟩
    simp only [setParam, h1, Bool.false_eq_true, if_false, List.cons_append,
      List.cons.injEq, true_and]
    exact ih h2

/-- A key found in the front list is still found after appending. -/
theorem paramsGet_append (ps qs : List (String × String)) (k : String) (v : String)
    (h : paramsGet ps k = some v) : paramsGet (ps ++ qs) k = some v := by
  induction ps with
  | nil => simp [paramsGet] at h
  | cons p rest ih =>
    rw [paramsGet_cons] at h
    rw [List.cons_append, paramsGet_cons]
    by_cases hk : (p.1 == k) = true
    · simpa [hk] using h
    · simp only [Bool.not_eq_true] at hk
      simp only [hk, Bool.false_eq_true, if_false] at h ⊢
      exact ih h

/-- C7 amended: in the try/catch (second) fixUrl variant, when the URL
carries a non-empty "n" cipher parameter and decoding it fails, fixUrl does
not raise — it returns the URL with the "n" parameter left unmodified, the
only change being the ensured ratebypass=yes parameter, which is appended
exactly when it was absent.  (The first variant, without the catch,
propagates the failure — see the counterexample.) -/
theorem c7_decode_failure_degrades (decode : String → Except String String)
    (u : UrlModel) (n : String) (hn : paramsGet u.params "n" = some n)
    (hne : (n == "") = false) (e : String) (hd : decode n = Except.error e) :
    fixUrl2 decode u
        = (if paramsHas u.params "ratebypass" then u
           else { u with params := u.params ++ [("ratebypass", "yes")] })
      ∧ paramsGet (fixUrl2 decode u).params "n" = some n := by
  have hbody : fixUrl2 decode u
      = (if paramsHas u.params "ratebypass" then u
         else { u with params := u.params ++ [("ratebypass", "yes")] }) := by
    unfold fixUrl2
    rw [hn]
    simp only [hne, Bool.false_eq_true, if_false, hd]
    by_cases hr : paramsHas u.params "ratebypass"
    · simp [hr]
    · simp only [Bool.not_eq_true] at hr
      simp [hr, setParam_absent "ratebypass" "yes" u.params hr]
  refine ⟨hbody, ?_⟩
  rw [hbody]
  by_cases hr : paramsHas u.params "ratebypass"
  · simpa [hr] using hn
  · simp only [Bool.not_eq_true] at hr
    simp only [hr, Bool.false_eq_true, if_false]
    exact paramsGet_append u.params [("ratebypass", "yes")] "n" n hn

/-- C7 witness: a concrete URL carrying n=abc under a decoder that always
fails comes back with n still abc and ratebypass=yes appended. -/
theorem c7_degrade_witness :
    fixUrl2 (fun _ => Except.error "Could not locate n-transform function name")
        { base := "https://r4---sn.example/videoplayback"
        , params := [("n", "abc"), ("itag", "251")] }
      = { base := "https://r4---sn.example/videoplayback"
        , params := [("n", "abc"), ("itag", "251"), ("ratebypass", "yes")] } :=
  (c7_decode_failure_degrades (fun _ => Except.error "Could not locate n-transform function name")
    { base := "https://r4---sn.example/videoplayback"
    , params := [("n", "abc"), ("itag", "251")] }
    "abc" rfl rfl "Could not locate n-transform function name" rfl).1

/-- The ratebypass adjustment shared by both fixUrl variants
(cipherDecoder.ts lines 123-125 and 378-380): set ratebypass=yes when the
parameter is absent. -/
def rbEnsure (u : UrlModel) : UrlModel :=
  if ¬ paramsHas u.params "ratebypass" then
    { u with params := setParam u.params "ratebypass" "yes" }
  else u

/-- Embedding of fixUrl, first variant (cipherDecoder.ts lines 116-127):
there is no try/catch around decodeN, so a decoding failure propagates out
of fixUrl as the error; only a successful decode (or a URL without a truthy
n parameter) reaches the ratebypass adjustment and returns a URL. -/
def fixUrl1 (decode : String → Except String String) (u : UrlModel) :
    Except String UrlModel :=
  match paramsGet u.params "n" with
  | some n =>
    if n == "" then .ok (rbEnsure u)
    else
      match decode n with
      | .ok d => .ok (rbEnsure { u with params := setParam u.params "n" d })
      | .error e => .error e
  | none => .ok (rbEnsure u)

/-- A concrete URL carrying a non-empty ciphered n parameter. -/
def c7url : UrlModel :=
  { base := "https://r4---sn.example/videoplayback"
  , params := [("n", "abc"), ("itag", "251")] }

/-- C7 counterexample: the first fixUrl variant (cipherDecoder.ts lines
116-127) has no try/catch, so when decoding the n parameter fails the
failure propagates — this fixUrl raises (returns the decode error, logging
nothing) instead of returning the URL with the n parameter unmodified. -/
theorem c7_raises_cx :
    fixUrl1 (fun _ => Except.error "Could not locate n-transform function name") c7url
        = Except.error "Could not locate n-transform function name"
      ∧ ∀ w : UrlModel,
          fixUrl1 (fun _ => Except.error "Could not locate n-transform function name") c7url
            ≠ Except.ok w := by
  have he : fixUrl1 (fun _ => Except.error "Could not locate n-transform function name") c7url
      = Except.error "Could not locate n-transform function name" := rfl
  refine ⟨he, fun w h => ?_⟩
  rw [he] at h
  exact absurd h (by simp)

deriving instance DecidableEq for Except

/-- One thumbnail of an Invidious video response (src/src/types.ts). -/
structure Thumb where
  url : String
  width : Nat
  height : Nat
deriving DecidableEq

/-- The fields of an InvidiousVideoResponse consumed by
createSongFromData (src/src/types.ts and index.ts lines 836-856). -/
structure VideoMeta where
  videoId : String
  title : String
  author : String
  authorId : String
  lengthSeconds : Nat
  viewCount : Nat
  likeCount : Nat
  liveNow : Bool
  videoThumbnails : List Thumb
deriving DecidableEq

/-- One candidate format from formatStreams or adaptiveFormats
(src/src/types.ts): url and type are declared required, mimeType and
encoding optional. -/
structure Fmt where
  url : String
  type : String
  mimeType : Option String
  encoding : Option String
deriving DecidableEq

/-- The slice of an InvidiousVideoResponse consumed by getStreamURL and
getRelatedSongs; the three lists may be absent at runtime (the code guards
with truthiness checks), hence Option. -/
structure VideoData where
  formatStreams : Option (List Fmt)
  adaptiveFormats : Option (List Fmt)
  recommendedVideos : Option (List VideoMeta)

/-- The expression format.mimeType || format.type || "" used by all
getStreamURL variants: first truthy (non-empty) of mimeType and type. -/
def mimeOf (f : Fmt) : String :=
  match f.mimeType with
  | some m => if m == "" then f.type else m
  | none => f.type

/-- The formatStreams fallback of getStreamURL first variant (index.ts
lines 151-157): return the url of the first entry when the list is present
and non-empty, otherwise the CANNOT_GET_STREAM_URL failure. -/
def fsFirst (d : VideoData) : Except String String :=
  match d.formatStreams with
  | some (f :: _) => .ok f.url
  | _ => .error "CANNOT_GET_STREAM_URL"

/-- Embedding of getStreamURL, first variant (index.ts lines 117-158):
search adaptiveFormats first — opus audio, then mp4 audio, then any audio —
and return the hit's url when truthy; only then fall back to the first
formatStreams entry. -/
def getStreamURL1 (d : VideoData) : Except String String :=
  let bestAudio : Option Fmt :=
    match d.adaptiveFormats with
    | some l =>
      if 0 < l.length then
        match l.find? (fun f => jsIncludes (mimeOf f) "audio" && jsIncludes (mimeOf f) "opus") with
        | some f => some f
        | none =>
          match l.find? (fun f => jsIncludes (mimeOf f) "audio" && jsIncludes (mimeOf f) "mp4") with
          | some f => some f
          | none => l.find? (fun f => jsIncludes (mimeOf f) "audio")
      else none
    | none => none
  match bestAudio with
  | some f => if f.url == "" then fsFirst d else .ok f.url
  | none => fsFirst d

/-- The pre-signed opus candidate of the C2 scenario. -/
def presignedOpus : Fmt :=
  { url := "https://x/presigned", type := "audio/webm; codecs=\"opus\""
  , mimeType := none, encoding := none }

/-- The adaptive AAC candidate of the C2 scenario. -/
def adaptiveAAC : Fmt :=
  { url := "https://x/adaptive", type := "audio/mp4; codecs=\"mp4a.40.2\""
  , mimeType := none, encoding := none }

/-- Metadata holding exactly one pre-signed opus candidate and one adaptive
AAC candidate. -/
def c2data : VideoData :=
  { formatStreams := some [presignedOpus]
  , adaptiveFormats := some [adaptiveAAC]
  , recommendedVideos := none }

/-- C2 counterexample: on a candidate set with exactly one pre-signed opus
candidate and one adaptive AAC candidate, the first getStreamURL variant
returns the adaptive AAC candidate's URL, not the pre-signed opus one — it
consults adaptiveFormats before formatStreams, so pre-signed formats are
not exhausted first. -/
theorem c2_adaptive_preferred_cx :
    getStreamURL1 c2data = Except.ok "https://x/adaptive"
      ∧ getStreamURL1 c2data ≠ Except.ok "https://x/presigned" := by
  decide

/-- Embedding of the isManifestUrl helper (index.ts lines 482-489): the
lowercased URL contains "/dash/" or ends in ".mpd" or ".m3u8". -/
def isManifestUrl (url : String) : Bool :=
  let lo := jsLower url
  jsIncludes lo "/dash/" || strEnds lo ".mpd" || strEnds lo ".m3u8"

/-- Embedding of the ensureRatebypass helper (index.ts lines 492-498):
append ratebypass=yes after ? or & when the lowercased URL does not already
carry a ratebypass parameter. -/
def ensureRatebypass (url : String) : String :=
  if ¬ jsIncludes (jsLower url) "ratebypass=" then
    url ++ (if jsIncludes url "?" then "&" else "?") ++ "ratebypass=yes"
  else url

/-- Embedding of the isAudioFormat helper (index.ts lines 501-511): the
lowercased mime starts with "audio/", and when a codec is requested it must
also occur in the mime. -/
def isAudioFormat (f : Fmt) (codec : Option String) : Bool :=
  let m := jsLower (mimeOf f)
  let isAudio := strStarts m "audio/"
  match codec with
  | some c => isAudio && jsIncludes m c
  | none => isAudio

/-- Embedding of the tryUrl helper (index.ts lines 538-560) with the
network reachability probe abstracted as the validate oracle: reject empty
and manifest URLs outright, ensure ratebypass, and return the adjusted URL
only when the probe accepts it. -/
def tryUrl (validate : String → Bool) (url : String) : Option String :=
  if url == "" || isManifestUrl url then none
  else
    let u2 := ensureRatebypass url
    if validate u2 then some u2 else none

/-- The expression format.field?.toLowerCase().includes(pat) on an optional
field: false when the field is absent. -/
def optIncl (o : Option String) (pat : String) : Bool :=
  match o with
  | some s => jsIncludes (jsLower s) pat
  | none => false

/-- The first formatStreams loop of getStreamURL second variant (index.ts
lines 567-593): for each format try the opus check and then, in the same
iteration, the AAC check, returning the first URL that survives tryUrl. -/
def fsScan (validate : String → Bool) (l : List Fmt) : Option String :=
  l.findSome? (fun f =>
    let r1 :=
      if isAudioFormat f (some "webm")
          && (jsIncludes (jsLower f.type) "opus" || optIncl f.mimeType "opus") then
        if f.url == "" then none else tryUrl validate f.url
      else none
    match r1 with
    | some u => some u
    | none =>
      if isAudioFormat f (some "mp4")
          && (jsIncludes (jsLower f.type) "mp4a" || jsIncludes (jsLower f.type) "aac"
              || optIncl f.mimeType "mp4a" || optIncl f.mimeType "aac") then
        if f.url == "" then none else tryUrl validate f.url
      else none)

/-- The "any audio format" loops of getStreamURL second variant (index.ts
lines 596-604 and 645-653): first format that is audio with a truthy url
and survives tryUrl. -/
def anyAudioScan (validate : String → Bool) (l : List Fmt) : Option String :=
  l.findSome? (fun f =>
    if isAudioFormat f none && ¬(f.url == "") then tryUrl validate f.url else none)

/-- The adaptiveFormats opus loop of getStreamURL second variant (index.ts
lines 613-625). -/
def adOpus (validate : String → Bool) (l : List Fmt) : Option String :=
  l.findSome? (fun f =>
    if isAudioFormat f (some "webm")
        && (optIncl f.encoding "opus" || optIncl f.mimeType "opus"
            || jsIncludes (jsLower f.type) "opus") then
      if f.url == "" then none else tryUrl validate f.url
    else none)

/-- The adaptiveFormats AAC loop of getStreamURL second variant (index.ts
lines 628-642). -/
def adAAC (validate : String → Bool) (l : List Fmt) : Option String :=
  l.findSome? (fun f =>
    if isAudioFormat f (some "mp4")
        && (optIncl f.encoding "aac" || optIncl f.mimeType "aac"
            || optIncl f.mimeType "mp4a.40.2" || jsIncludes (jsLower f.type) "aac"
            || jsIncludes (jsLower f.type) "mp4a.40.2") then
      if f.url == "" then none else tryUrl validate f.url
    else none)

/-- Priority 1 of getStreamURL second variant (index.ts lines 562-605):
the whole formatStreams tier, guarded by presence and non-emptiness. -/
def fsTier (validate : String → Bool) (d : VideoData) : Option String :=
  match d.formatStreams with
  | some l =>
    if 0 < l.length then
      match fsScan validate l with
      | some u => some u
      | none => anyAudioScan validate l
    else none
  | none => none

/-- Priority 2 of getStreamURL second variant (index.ts lines 607-654):
the whole adaptiveFormats tier, guarded by presence and non-emptiness. -/
def adTier (validate : String → Bool) (d : VideoData) : Option String :=
  match d.adaptiveFormats with
  | some l =>
    if 0 < l.length then
      match adOpus validate l with
      | some u => some u
      | none =>
        match adAAC validate l with
        | some u => some u
        | none => anyAudioScan validate l
    else none
  | none => none

/-- Embedding of getStreamURL, second variant (index.ts lines 562-668):
exhaust formatStreams (opus and AAC per entry, then any audio), then
adaptiveFormats (opus loop, AAC loop, any-audio loop), every candidate
passing through tryUrl; throw CANNOT_GET_STREAM_URL when nothing survives. -/
def getStreamURL2 (validate : String → Bool) (d : VideoData) : Except String String :=
  match fsTier validate d with
  | some u => .ok u
  | none =>
    match adTier validate d with
    | some u => .ok u
    | none => .error "CANNOT_GET_STREAM_URL"

/-- C2 amended: the validated getStreamURL variant does put pre-signed
formats first.  Whenever formatStreams holds a single audio/webm opus
candidate with a truthy, non-manifest URL whose ratebypass-adjusted form
passes the reachability probe, that candidate's (adjusted) URL is returned,
whatever adaptiveFormats holds — the adaptive tier is never consulted.  The
first and third variants do not satisfy the original claim. -/
theorem c2_presigned_first_amended (validate : String → Bool) (o : Fmt)
    (ads recs) (h1 : isAudioFormat o (some "webm") = true)
    (h2 : (jsIncludes (jsLower o.type) "opus" || optIncl o.mimeType "opus") = true)
    (h3 : (o.url == "") = false) (h4 : isManifestUrl o.url = false)
    (h5 : validate (ensureRatebypass o.url) = true) :
    getStreamURL2 validate
        { formatStreams := some [o], adaptiveFormats := ads, recommendedVideos := recs }
      = Except.ok (ensureRatebypass o.url) := by
  have htry : tryUrl validate o.url = some (ensureRatebypass o.url) := by
    unfold tryUrl
    simp [h3, h4, h5]
  unfold getStreamURL2 fsTier
  simp only [List.length_cons, Nat.zero_lt_succ, if_true]
  unfold fsScan
  simp [List.findSome?, h1, h2, h3, htry]

/-- C2 amended witness: the concrete two-candidate scenario of the claim
under an always-accepting probe returns the pre-signed opus URL (with
ratebypass ensured). -/
theorem c2_amended_witness :
    getStreamURL2 (fun _ => true) c2data
      = Except.ok "https://x/presigned?ratebypass=yes" :=
  c2_presigned_first_amended (fun _ => true) presignedOpus (some [adaptiveAAC]) none
    (by decide) (by decide) (by decide) (by decide) rfl

/-- The isAudioOnly helper of getStreamURL third variant (index.ts lines
995-999): the lowercased mime starts with "audio/". -/
def isAudioOnly (f : Fmt) : Bool := strStarts (jsLower (mimeOf f)) "audio/"

/-- The hasCodec helper of getStreamURL third variant (index.ts lines
1002-1009): the codec occurs in the lowercased mime or encoding. -/
def hasCodec (f : Fmt) (c : String) : Bool :=
  jsIncludes (jsLower (mimeOf f)) c || jsIncludes (jsLower (f.encoding.getD "")) c

/-- Embedding of getStreamURL, third variant (index.ts lines 982-1091):
search adaptiveFormats only, for audio/webm opus, then audio/mp4 AAC, then
any audio-only non-manifest entry; the manifest check appears only in that
last tier.  The selected URL is rejected when its trim is empty, otherwise
returned. -/
def getStreamURL3 (d : VideoData) : Except String String :=
  let sel1 : Option Fmt :=
    match d.adaptiveFormats with
    | some l =>
      if 0 < l.length then
        l.find? (fun f =>
          isAudioOnly f && ¬(f.url == "")
            && strStarts (jsLower (mimeOf f)) "audio/webm" && hasCodec f "opus")
      else none
    | none => none
  let sel2 : Option Fmt :=
    match sel1 with
    | some f => some f
    | none =>
      match d.adaptiveFormats with
      | some l =>
        if 0 < l.length then
          l.find? (fun f =>
            isAudioOnly f && ¬(f.url == "")
              && strStarts (jsLower (mimeOf f)) "audio/mp4"
              && (hasCodec f "mp4a.40.2" || hasCodec f "aac"))
        else none
      | none => none
  let sel3 : Option Fmt :=
    match sel2 with
    | some f => some f
    | none =>
      match d.adaptiveFormats with
      | some l =>
        if 0 < l.length then
          l.find? (fun f =>
            isAudioOnly f && ¬(f.url == "")
              && (¬ jsIncludes (jsLower f.url) "/dash/"
                  && ¬ strEnds (jsLower f.url) ".mpd" && ¬ strEnds (jsLower f.url) ".m3u8"))
        else none
      | none => none
  match sel3 with
  | some f =>
    if f.url == "" then .error "CANNOT_GET_STREAM_URL"
    else if jsTrim f.url == "" then .error "Selected audio URL is empty"
    else .ok f.url
  | none => .error "CANNOT_GET_STREAM_URL"

/-- An adaptive audio/webm opus candidate whose URL is a DASH manifest. -/
def manifestOpus : Fmt :=
  { url := "https://host/dash/a.mpd", type := "audio/webm; codecs=\"opus\""
  , mimeType := none, encoding := none }

/-- Metadata whose only candidate is the manifest-URL opus entry. -/
def c3data : VideoData :=
  { formatStreams := none, adaptiveFormats := some [manifestOpus]
  , recommendedVideos := none }

/-- C3 counterexample: the third getStreamURL variant's opus tier has no
manifest check, so metadata whose only audio entry is an opus candidate in
segmented-manifest form gets that manifest URL returned — a manifest URL is
not excluded from selection in every tier. -/
theorem c3_manifest_returned_cx :
    getStreamURL3 c3data = Except.ok "https://host/dash/a.mpd"
      ∧ isManifestUrl "https://host/dash/a.mpd" = true := by
  decide

/-- Every successful findSome? scan is produced by some list member. -/
theorem findSomeWitness {α β : Type} (f : α → Option β) (b : β) :
    ∀ l : List α, l.findSome? f = some b → ∃ a, a ∈ l ∧ f a = some b := by
  intro l
  induction l with
  | nil => intro h; simp [List.findSome?_nil] at h
  | cons a rest ih =>
    intro h
    rw [List.findSome?_cons] at h
    cases hfa : f a with
    | some b2 =>
      rw [hfa] at h
      exact ⟨a, List.mem_cons_self a rest, by rw [hfa]; exact h⟩
    | none =>
      rw [hfa] at h
      rcases ih h with ⟨x, hx, hfx⟩
      exact ⟨x, List.mem_cons_of_mem a hx, hfx⟩

/-- Every URL that survives tryUrl comes from a non-manifest candidate URL
whose ratebypass-adjusted form it is. -/
theorem tryUrl_some (v : String → Bool) (url u : String)
    (h : tryUrl v url = some u) :
    isManifestUrl url = false ∧ u = ensureRatebypass url := by
  simp only [tryUrl] at h
  split at h
  · exact absurd h (by simp)
  next hg =>
    simp only [Bool.or_eq_true, not_or, Bool.not_eq_true] at hg
    split at h
    · exact ⟨hg.2, (Option.some.inj h).symm⟩
    · exact absurd h (by simp)

/-- Any adOpus hit comes from a list member whose own URL is non-manifest. -/
theorem adOpus_some (v : String → Bool) (l : List Fmt) (u : String)
    (h : adOpus v l = some u) :
    ∃ f, f ∈ l ∧ isManifestUrl f.url = false ∧ u = ensureRatebypass f.url := by
  unfold adOpus at h
  rcases findSomeWitness _ u l h with ⟨f, hmem, hf⟩
  refine ⟨f, hmem, ?_⟩
  split at hf
  · split at hf
    · exact absurd hf (by simp)
    · exact tryUrl_some v f.url u hf
  · exact absurd hf (by simp)

/-- Any adAAC hit comes from a list member whose own URL is non-manifest. -/
theorem adAAC_some (v : String → Bool) (l : List Fmt) (u : String)
    (h : adAAC v l = some u) :
    ∃ f, f ∈ l ∧ isManifestUrl f.url = false ∧ u = ensureRatebypass f.url := by
  unfold adAAC at h
  rcases findSomeWitness _ u l h with ⟨f, hmem, hf⟩
  refine ⟨f, hmem, ?_⟩
  split at hf
  · split at hf
    · exact absurd hf (by simp)
    · exact tryUrl_some v f.url u hf
  · exact absurd hf (by simp)

/-- Any anyAudioScan hit comes from a list member whose own URL is
non-manifest. -/
theorem anyAudioScan_some (v : String → Bool) (l : List Fmt) (u : String)
    (h : anyAudioScan v l = some u) :
    ∃ f, f ∈ l ∧ isManifestUrl f.url = false ∧ u = ensureRatebypass f.url := by
  unfold anyAudioScan at h
  rcases findSomeWitness _ u l h with ⟨f, hmem, hf⟩
  refine ⟨f, hmem, ?_⟩
  split at hf
  · exact tryUrl_some v f.url u hf
  · exact absurd hf (by simp)

/-- Any fsScan hit comes from a list member whose own URL is non-manifest. -/
theorem fsScan_some (v : String → Bool) (l : List Fmt) (u : String)
    (h : fsScan v l = some u) :
    ∃ f, f ∈ l ∧ isManifestUrl f.url = false ∧ u = ensureRatebypass f.url := by
  unfold fsScan at h
  rcases findSomeWitness _ u l h with ⟨f, hmem, hf⟩
  refine ⟨f, hmem, ?_⟩
  cases hr1 : (if isAudioFormat f (some "webm")
      && (jsIncludes (jsLower f.type) "opus" || optIncl f.mimeType "opus") then
        if f.url == "" then none else tryUrl v f.url
      else none) with
  | some w =>
    rw [hr1] at hf
    have huw : w = u := Option.some.inj hf
    subst huw
    split at hr1
    · split at hr1
      · exact absurd hr1 (by simp)
      · exact tryUrl_some v f.url w hr1
    · exact absurd hr1 (by simp)
  | none =>
    rw [hr1] at hf
    split at hf
    · split at hf
      · exact absurd hf (by simp)
      · exact tryUrl_some v f.url u hf
    · exact absurd hf (by simp)

/-- Any formatStreams-tier hit comes from a member of the metadata's
formatStreams list whose own URL is non-manifest. -/
theorem fsTier_some (v : String → Bool) (d : VideoData) (u : String)
    (h : fsTier v d = some u) :
    ∃ l, d.formatStreams = some l
      ∧ ∃ f, f ∈ l ∧ isManifestUrl f.url = false ∧ u = ensureRatebypass f.url := by
  unfold fsTier at h
  cases hfs : d.formatStreams with
  | none => simp only [hfs] at h; exact absurd h (by simp)
  | some l =>
    simp only [hfs] at h
    refine ⟨l, rfl, ?_⟩
    split at h
    · cases hscan : fsScan v l with
      | some w =>
        simp only [hscan, Option.some.injEq] at h
        exact h ▸ fsScan_some v l w hscan
      | none =>
        simp only [hscan] at h
        exact anyAudioScan_some v l u h
    · exact absurd h (by simp)

/-- Any adaptiveFormats-tier hit comes from a member of the metadata's
adaptiveFormats list whose own URL is non-manifest. -/
theorem adTier_some (v : String → Bool) (d : VideoData) (u : String)
    (h : adTier v d = some u) :
    ∃ l, d.adaptiveFormats = some l
      ∧ ∃ f, f ∈ l ∧ isManifestUrl f.url = false ∧ u = ensureRatebypass f.url := by
  unfold adTier at h
  cases hfs : d.adaptiveFormats with
  | none => simp only [hfs] at h; exact absurd h (by simp)
  | some l =>
    simp only [hfs] at h
    refine ⟨l, rfl, ?_⟩
    split at h
    · cases h1 : adOpus v l with
      | some w =>
        simp only [h1, Option.some.injEq] at h
        exact h ▸ adOpus_some v l w h1
      | none =>
        simp only [h1] at h
        cases h2 : adAAC v l with
        | some w =>
          simp only [h2, Option.some.injEq] at h
          exact h ▸ adAAC_some v l w h2
        | none =>
          simp only [h2] at h
          exact anyAudioScan_some v l u h
    · exact absurd h (by simp)

/-- Any URL returned by the validated getStreamURL variant is the
ratebypass-adjusted URL of an actual candidate of the metadata (a member of
its formatStreams or adaptiveFormats list) whose URL is non-manifest. -/
theorem getStreamURL2_ok_shape (validate : String → Bool) (d : VideoData) (u : String)
    (h : getStreamURL2 validate d = Except.ok u) :
    ∃ f : Fmt,
      ((∃ l, d.formatStreams = some l ∧ f ∈ l)
          ∨ (∃ l, d.adaptiveFormats = some l ∧ f ∈ l))
        ∧ isManifestUrl f.url = false ∧ u = ensureRatebypass f.url := by
  unfold getStreamURL2 at h
  cases h1 : fsTier validate d with
  | some w =>
    simp only [h1, Except.ok.injEq] at h
    rcases fsTier_some validate d w h1 with ⟨l, hl, f, hmem, hman, hu⟩
    exact ⟨f, Or.inl ⟨l, hl, hmem⟩, hman, h ▸ hu⟩
  | none =>
    simp only [h1] at h
    cases h2 : adTier validate d with
    | some w =>
      simp only [h2, Except.ok.injEq] at h
      rcases adTier_some validate d w h2 with ⟨l, hl, f, hmem, hman, hu⟩
      exact ⟨f, Or.inr ⟨l, hl, hmem⟩, hman, h ▸ hu⟩
    | none =>
      simp only [h2] at h
      exact absurd h (by simp)

/-- A scan whose every element yields none finds nothing. -/
theorem findSome_none {α β : Type} (f : α → Option β) :
    ∀ l : List α, (∀ a ∈ l, f a = none) → l.findSome? f = none := by
  intro l
  induction l with
  | nil => intro _; rfl
  | cons a rest ih =>
    intro h
    rw [List.findSome?_cons, h a (List.mem_cons_self a rest)]
    exact ih (fun x hx => h x (List.mem_cons_of_mem a hx))

/-- A manifest URL is rejected by tryUrl outright, before the probe. -/
theorem tryUrl_manifest (v : String → Bool) (url : String)
    (h : isManifestUrl url = true) : tryUrl v url = none := by
  have hc : (url == "" || isManifestUrl url) = true := by rw [h]; simp
  unfold tryUrl
  rw [if_pos hc]

/-- adOpus finds nothing in a list of manifest-URL candidates. -/
theorem adOpus_all_manifest (v : String → Bool) (l : List Fmt)
    (h : ∀ f ∈ l, isManifestUrl f.url = true) : adOpus v l = none := by
  unfold adOpus
  refine findSome_none _ l (fun f hf => ?_)
  split
  · split
    · rfl
    · exact tryUrl_manifest v f.url (h f hf)
  · rfl

/-- adAAC finds nothing in a list of manifest-URL candidates. -/
theorem adAAC_all_manifest (v : String → Bool) (l : List Fmt)
    (h : ∀ f ∈ l, isManifestUrl f.url = true) : adAAC v l = none := by
  unfold adAAC
  refine findSome_none _ l (fun f hf => ?_)
  split
  · split
    · rfl
    · exact tryUrl_manifest v f.url (h f hf)
  · rfl

/-- anyAudioScan finds nothing in a list of manifest-URL candidates. -/
theorem anyAudioScan_all_manifest (v : String → Bool) (l : List Fmt)
    (h : ∀ f ∈ l, isManifestUrl f.url = true) : anyAudioScan v l = none := by
  unfold anyAudioScan
  refine findSome_none _ l (fun f hf => ?_)
  split
  · exact tryUrl_manifest v f.url (h f hf)
  · rfl

/-- fsScan finds nothing in a list of manifest-URL candidates. -/
theorem fsScan_all_manifest (v : String → Bool) (l : List Fmt)
    (h : ∀ f ∈ l, isManifestUrl f.url = true) : fsScan v l = none := by
  unfold fsScan
  refine findSome_none _ l (fun f hf => ?_)
  have ht := tryUrl_manifest v f.url (h f hf)
  cases hr1 : (if isAudioFormat f (some "webm")
      && (jsIncludes (jsLower f.type) "opus" || optIncl f.mimeType "opus") then
        if f.url == "" then none else tryUrl v f.url
      else none) with
  | some w =>
    exfalso
    split at hr1
    · split at hr1
      · exact absurd hr1 (by simp)
      · rw [ht] at hr1; exact absurd hr1 (by simp)
    · exact absurd hr1 (by simp)
  | none =>
    show (if isAudioFormat f (some "mp4")
        && (jsIncludes (jsLower f.type) "mp4a" || jsIncludes (jsLower f.type) "aac"
            || optIncl f.mimeType "mp4a" || optIncl f.mimeType "aac") then
        if f.url == "" then none else tryUrl v f.url
      else none) = none
    split
    · split
      · rfl
      · exact ht
    · rfl

/-- The formatStreams tier fails when every candidate URL is a manifest. -/
theorem fsTier_all_manifest (v : String → Bool) (d : VideoData)
    (h : ∀ l, d.formatStreams = some l → ∀ f ∈ l, isManifestUrl f.url = true) :
    fsTier v d = none := by
  unfold fsTier
  cases hfs : d.formatStreams with
  | none => rfl
  | some l =>
    show (if 0 < l.length then
        (match fsScan v l with
         | some u => some u
         | none => anyAudioScan v l)
      else none) = none
    split
    · rw [fsScan_all_manifest v l (h l hfs)]
      exact anyAudioScan_all_manifest v l (h l hfs)
    · rfl

/-- The adaptiveFormats tier fails when every candidate URL is a manifest. -/
theorem adTier_all_manifest (v : String → Bool) (d : VideoData)
    (h : ∀ l, d.adaptiveFormats = some l → ∀ f ∈ l, isManifestUrl f.url = true) :
    adTier v d = none := by
  unfold adTier
  cases hfs : d.adaptiveFormats with
  | none => rfl
  | some l =>
    show (if 0 < l.length then
        (match adOpus v l with
         | some u => some u
         | none =>
           match adAAC v l with
           | some u => some u
           | none => anyAudioScan v l)
      else none) = none
    split
    · rw [adOpus_all_manifest v l (h l hfs), adAAC_all_manifest v l (h l hfs)]
      exact anyAudioScan_all_manifest v l (h l hfs)
    · rfl

/-- When every audio entry of the metadata is in manifest form — including
when a manifest is the only entry — the validated variant fails with
CANNOT_GET_STREAM_URL instead of returning a manifest. -/
theorem getStreamURL2_all_manifest (v : String → Bool) (d : VideoData)
    (hfs : ∀ l, d.formatStreams = some l → ∀ f ∈ l, isManifestUrl f.url = true)
    (had : ∀ l, d.adaptiveFormats = some l → ∀ f ∈ l, isManifestUrl f.url = true) :
    getStreamURL2 v d = Except.error "CANNOT_GET_STREAM_URL" := by
  unfold getStreamURL2
  rw [fsTier_all_manifest v d hfs, adTier_all_manifest v d had]

/-- C3 amended: in the validated (second) getStreamURL variant the manifest
exclusion does hold in every tier.  First, every returned URL is the
ratebypass-adjusted URL of an actual candidate of the metadata — a member
of its formatStreams or adaptiveFormats list — whose URL is not in
segmented-manifest form; second, when every candidate's URL is a manifest
(in particular when a manifest is the only audio entry) the call fails with
CANNOT_GET_STREAM_URL instead of returning one.  In the third variant the
exclusion applies only to the final any-audio tier (and the first variant
never checks), so those variants can return a manifest URL. -/
theorem c3_no_manifest_amended :
    (∀ (validate : String → Bool) (d : VideoData) (u : String),
        getStreamURL2 validate d = Except.ok u →
        ∃ f : Fmt,
          ((∃ l, d.formatStreams = some l ∧ f ∈ l)
              ∨ (∃ l, d.adaptiveFormats = some l ∧ f ∈ l))
            ∧ isManifestUrl f.url = false ∧ u = ensureRatebypass f.url)
      ∧ (∀ (validate : String → Bool) (d : VideoData),
          (∀ l, d.formatStreams = some l → ∀ f ∈ l, isManifestUrl f.url = true) →
          (∀ l, d.adaptiveFormats = some l → ∀ f ∈ l, isManifestUrl f.url = true) →
          getStreamURL2 validate d = Except.error "CANNOT_GET_STREAM_URL") :=
  ⟨getStreamURL2_ok_shape, getStreamURL2_all_manifest⟩

/-- C3 amended witness: the URL returned in the concrete pre-signed-opus
scenario is certified to come from a non-manifest candidate of that
metadata, and the metadata whose only audio entry is a DASH manifest makes
the validated variant fail. -/
theorem c3_amended_witness :
    (∃ f : Fmt,
        ((∃ l, c2data.formatStreams = some l ∧ f ∈ l)
            ∨ (∃ l, c2data.adaptiveFormats = some l ∧ f ∈ l))
          ∧ isManifestUrl f.url = false
          ∧ "https://x/presigned?ratebypass=yes" = ensureRatebypass f.url)
      ∧ getStreamURL2 (fun _ => true) c3data = Except.error "CANNOT_GET_STREAM_URL" :=
  ⟨c3_no_manifest_amended.1 (fun _ => true) c2data "https://x/presigned?ratebypass=yes" rfl,
   c3_no_manifest_amended.2 (fun _ => true) c3data
     (fun l hl => by simp [c3data] at hl)
     (fun l hl f hf => by
       simp only [c3data, Option.some.injEq] at hl
       subst hl
       simp only [List.mem_singleton] at hf
       subst hf
       decide)⟩

/-- The Song entity built by createSongFromData (index.ts lines 836-856),
restricted to the fields that constructor sets. -/
structure Song where
  id : String
  name : String
  url : String
  thumbnail : String
  duration : Nat
  isLive : Bool
  views : Nat
  likes : Nat
  uploaderName : String
  uploaderUrl : String
deriving DecidableEq

/-- Pixel area of a thumbnail, the sort key of getBestThumbnail. -/
def thumbArea (t : Thumb) : Nat := t.width * t.height

/-- Insert into a descending-by-area list, after any entry of equal area. -/
def insertThumb (t : Thumb) : List Thumb → List Thumb
  | [] => [t]
  | u :: rest =>
    if thumbArea t ≤ thumbArea u then u :: insertThumb t rest else t :: u :: rest

/-- Stable descending-by-area sort: the result of the ECMAScript stable
Array.prototype.sort with the comparator (a, b) => b.width * b.height -
a.width * a.height used by getBestThumbnail (index.ts lines 786-798). -/
def sortThumbs (l : List Thumb) : List Thumb :=
  l.foldl (fun acc t => insertThumb t acc) []

/-- Embedding of getBestThumbnail (index.ts lines 786-798): empty list gives
"", otherwise the url of the highest-resolution thumbnail. -/
def getBestThumbnail (ts : List Thumb) : String :=
  match ts with
  | [] => ""
  | _ =>
    match sortThumbs ts with
    | [] => ""
    | t :: _ => t.url

/-- Embedding of createSongFromData (index.ts lines 836-856): the Song
fields populated from the video data and the instance URL. -/
def createSongFromData (inst : String) (d : VideoMeta) : Song :=
  { id := d.videoId
  , name := d.title
  , url := inst ++ "/watch?v=" ++ d.videoId
  , thumbnail := getBestThumbnail d.videoThumbnails
  , duration := d.lengthSeconds
  , isLive := d.liveNow
  , views := d.viewCount
  , likes := d.likeCount
  , uploaderName := d.author
  , uploaderUrl := inst ++ "/channel/" ++ d.authorId }

/-- Embedding of getRelatedSongs (index.ts lines 674-686): an absent or
empty recommendedVideos list gives the empty result, otherwise
slice(0, 10) mapped through createSongFromData. -/
def getRelatedSongs (inst : String) (d : VideoData) : List Song :=
  match d.recommendedVideos with
  | none => []
  | some l =>
    if l.length = 0 then []
    else (l.take 10).map (createSongFromData inst)

/-- C10: getRelatedSongs returns at most 10 songs; an absent or empty
recommendedVideos list gives the empty list, and otherwise the result is
exactly the first min(10, length) recommended videos, converted to Songs in
their original order. -/
theorem c10_related_songs_spec (inst : String) (d : VideoData) :
    (getRelatedSongs inst d).length ≤ 10
      ∧ (d.recommendedVideos = none → getRelatedSongs inst d = [])
      ∧ (∀ l, d.recommendedVideos = some l →
          getRelatedSongs inst d = (l.take 10).map (createSongFromData inst)
            ∧ (getRelatedSongs inst d).length = min 10 l.length) := by
  refine ⟨?_, ?_, ?_⟩
  · unfold getRelatedSongs
    cases d.recommendedVideos with
    | none => simp
    | some l =>
      by_cases hl : l.length = 0
      · simp [hl]
      · simp only [hl, if_false, List.length_map, List.length_take]
        exact min_le_left 10 l.length
  · intro h
    unfold getRelatedSongs
    rw [h]
  · intro l h
    unfold getRelatedSongs
    rw [h]
    by_cases hl : l.length = 0
    · have hnil : l = [] := List.length_eq_zero.mp hl
      subst hnil
      simp
    · simp [hl]

/-- A concrete recommended video used by the C10 witness. -/
def rv1 : VideoMeta :=
  { videoId := "v1", title := "t1", author := "au", authorId := "aid"
  , lengthSeconds := 9, viewCount := 1, likeCount := 2, liveNow := false
  , videoThumbnails := [{ url := "th", width := 2, height := 2 }] }

/-- Metadata whose recommendation list holds exactly rv1. -/
def rvData : VideoData :=
  { formatStreams := none, adaptiveFormats := none, recommendedVideos := some [rv1] }

/-- C10 witness: a concrete single-entry recommendation list comes back as
that one converted Song. -/
theorem c10_related_witness :
    (getRelatedSongs "https://inst" rvData).length ≤ 10
      ∧ getRelatedSongs "https://inst" rvData
          = ([rv1].take 10).map (createSongFromData "https://inst") :=
  ⟨(c10_related_songs_spec "https://inst" rvData).1,
    ((c10_related_songs_spec "https://inst" rvData).2.2 [rv1] rfl).1⟩

end DistubeInvidious
